import Mathlib

/-!
Verification of the request-dispatch and async-completion-polling core of the
meilisearch-go client.

The embedding translates `fast_client.go` (the Dispatcher: `executeRequest`,
`sendRequest`, `handleStatusCode`, `handleResponse`, and the Poller:
`WaitForPendingUpdate`) together with the supporting data shapes from
`client.go` and the types file.  External collaborators (the fasthttp
Transport, the Go `net/url` parser, the payloads' `MarshalJSON` /
`UnmarshalJSON` methods) are modelled explicitly: the Transport as a function
from the outgoing request to a status/body pair or a failure, the
serialization methods by their observable results, and `net/url` by an
executable model of the fragment of its behaviour this client exercises.
-/

deriving instance DecidableEq for Except

/-- Config (client.go): the host of the meilisearch database plus an optional
API key (empty string when unconfigured). -/
structure Config where
  host : String
  apiKey : String
  deriving DecidableEq, Repr

/-- The error-kind tags attached via `WithErrCode` in fast_client.go:
`ErrCodeMarshalRequest` (spec kind RequestSerialization),
`ErrCodeRequestExecution` (TransportExecution), `ErrCodeResponseStatusCode`
(UnexpectedStatusCode) and `ErrCodeResponseUnmarshalBody`
(ResponseDeserialization). -/
inductive ErrCode where
  | marshalRequest
  | requestExecution
  | responseStatusCode
  | responseUnmarshalBody
  deriving DecidableEq, Repr

/-- The structured client Error.  Its field set is taken from the construction
site in `executeRequest` (fast_client.go lines 84-93, 100) together with the
spec's Structured Error description; the type itself is declared outside the
dispatch file.  `statusCodeExpected` keeps Go's nil-versus-present slice
distinction (`none` models a nil `acceptedStatusCodes`). -/
structure MeiliError where
  endpoint : String
  method : String
  function : String
  apiName : String
  requestToString : String
  responseToString : String
  meilisearchMessage : String
  statusCodeExpected : Option (List Int)
  statusCode : Int
  errCode : Option ErrCode
  wrappedCause : Option String
  deriving DecidableEq, Repr

/-- Modelled from the spec: `Error.WithErrCode` (declared outside
fast_client.go) tags the structured error with an error-kind and optionally
wraps a lower-level cause; it does not otherwise alter the diagnostic
fields. -/
def MeiliError.withErrCode (e : MeiliError) (code : ErrCode) (cause : Option String) : MeiliError :=
  { e with errCode := some code, wrappedCause := cause }

/-- Drop everything up to and including the first occurrence of `pat` in the
character list, returning `none` when `pat` does not occur. -/
def dropAfterSub (pat : List Char) : List Char → Option (List Char)
  | [] => if pat.isEmpty then some [] else none
  | c :: cs =>
    if pat.isPrefixOf (c :: cs) then some ((c :: cs).drop pat.length)
    else dropAfterSub pat cs

/-- Modelled from the spec: best-effort extraction of a server-provided error
message from an arbitrary response body — a tolerant scan for a JSON
`"message"` field that degrades to `none` rather than failing (absence of a
parseable message is not itself an error). -/
def extractMeiliMessage (body : String) : Option String :=
  match dropAfterSub ("\"message\":\"".toList) body.toList with
  | none => none
  | some rest => some (String.mk (rest.takeWhile (fun c => c ≠ '\"')))

/-- Modelled from the spec: `Error.ErrorBody` (declared outside
fast_client.go) records the raw response body as the response diagnostic text
and best-effort extracts a server-provided message from it, keeping the
previous message text when none is parseable. -/
def MeiliError.errorBody (e : MeiliError) (body : String) : MeiliError :=
  { e with
    responseToString := body,
    meilisearchMessage := (extractMeiliMessage body).getD e.meilisearchMessage }

/-- Cut a string at the first occurrence of `sep`: the part before it, and
the part after it when `sep` occurs (Go `strings.Cut`). -/
def cutFirst (s : String) (sep : Char) : String × Option String :=
  match s.toList.span (fun c => c ≠ sep) with
  | (a, []) => (String.mk a, none)
  | (a, _ :: b) => (String.mk a, some (String.mk b))

/-- The parsed URL shape this client exercises: the part before any query,
the raw query string, and the fragment (without its leading marker). -/
structure ParsedURL where
  base : String
  rawQuery : String
  fragment : String
  deriving DecidableEq, Repr

/-- Whether the string contains an ASCII control character, the condition
under which Go `net/url.Parse` rejects a URL. -/
def containsCtrlChar (s : String) : Bool :=
  s.toList.any (fun c => c.toNat < 32 || c.toNat == 127)

/-- Model of Go `net/url.Parse` for the URLs this client builds: the parse
fails exactly on strings containing an ASCII control character; otherwise the
string is cut at the first fragment marker and the remainder at the first
question mark into base and raw query. -/
def parseURL (s : String) : Except String ParsedURL :=
  if containsCtrlChar s then
    Except.error "net/url: invalid control character in URL"
  else
    match cutFirst s '#' with
    | (rest, frag) =>
      match cutFirst rest '?' with
      | (base, q) =>
        Except.ok { base := base, rawQuery := q.getD "", fragment := frag.getD "" }

/-- Model of Go `url.URL.String` for the parsed shape above. -/
def urlString (u : ParsedURL) : String :=
  u.base ++ (if u.rawQuery = "" then "" else "?" ++ u.rawQuery)
    ++ (if u.fragment = "" then "" else "#" ++ u.fragment)

/-- Go `url.Values`: an ordered association of keys to their value lists
(keys kept unique; Go's map iteration order is irrelevant here because
`Encode` sorts by key). -/
abbrev Values := List (String × List String)

/-- Go `url.Values.Add`: append the value to the key's list, creating the
entry when absent. -/
def valuesAdd (q : Values) (key value : String) : Values :=
  match q with
  | [] => [(key, [value])]
  | (k, vs) :: rest =>
    if k = key then (k, vs ++ [value]) :: rest
    else (k, vs) :: valuesAdd rest key value

/-- Go `url.Values.Set`: replace the key's values with the single given
value. -/
def valuesSet (q : Values) (key value : String) : Values :=
  match q with
  | [] => [(key, [value])]
  | (k, vs) :: rest =>
    if k = key then (key, [value]) :: rest
    else (k, vs) :: valuesSet rest key value

/-- Go `url.Values` lookup (`m[key]` with a nil default). -/
def valuesGet (q : Values) (key : String) : List String :=
  match q with
  | [] => []
  | (k, vs) :: rest => if k = key then vs else valuesGet rest key

/-- Split a character list on every occurrence of `sep`. -/
def splitOnChar (sep : Char) : List Char → List (List Char)
  | [] => [[]]
  | c :: cs =>
    if c = sep then [] :: splitOnChar sep cs
    else
      match splitOnChar sep cs with
      | [] => [[c]]
      | p :: ps => (c :: p) :: ps

/-- Model of Go `net/url.ParseQuery` as invoked by `URL.Query()`: split the
raw query on the ampersand, skip empty components, cut each component at its
first equals sign (a missing sign yields an empty value), and accumulate in
order with repeated keys appending.  Percent-escaping is not modelled; the
theorems that rely on re-parsing restrict keys and values to strings free of
the separator characters. -/
def parseQuery (rawQuery : String) : Values :=
  (splitOnChar '&' rawQuery.toList).foldl
    (fun acc comp =>
      if comp.isEmpty then acc
      else
        match cutFirst (String.mk comp) '=' with
        | (k, v) => valuesAdd acc k (v.getD ""))
    []

/-- Byte-wise (here: code-point-wise) lexicographic order on strings, the
order `sort.Strings` uses on the keys in `url.Values.Encode`. -/
def charListLe : List Char → List Char → Bool
  | [], _ => true
  | _ :: _, [] => false
  | a :: as, b :: bs =>
    if a.toNat < b.toNat then true
    else if b.toNat < a.toNat then false
    else charListLe as bs

/-- Insert one key/values entry into a key-sorted association list. -/
def insertByKey (p : String × List String) : Values → Values
  | [] => [p]
  | q :: qs =>
    if charListLe p.1.toList q.1.toList then p :: q :: qs
    else q :: insertByKey p qs

/-- Sort a `Values` association by key, as `url.Values.Encode` does. -/
def sortByKey : Values → Values
  | [] => []
  | p :: ps => insertByKey p (sortByKey ps)

/-- Model of Go `url.Values.Encode`: emit one `key=value` component per value
under each key, keys in sorted order, components joined by ampersands.
Percent-escaping is not modelled. -/
def encodeValues (q : Values) : String :=
  String.intercalate "&"
    ((sortByKey q).flatMap (fun p => p.2.map (fun v => p.1 ++ "=" ++ v)))

/-- The query-merge loop of `sendRequest` (fast_client.go lines 132-138):
`query.Set(key, value)` for every descriptor parameter, folded over the
query parsed from the constructed URL. -/
def mergeQueryParams (q : Values) (ps : List (String × String)) : Values :=
  ps.foldl (fun acc kv => valuesSet acc kv.1 kv.2) q

/-- The URL-construction and query-merge stage of `sendRequest`
(fast_client.go lines 125-139): parse the host joined with the endpoint; when
query parameters are present, merge them into the parsed query and re-encode
it into the URL's raw query. -/
def buildRequestURL (cfg : Config) (endpoint : String)
    (withQueryParams : Option (List (String × String))) : Except String ParsedURL :=
  match parseURL (cfg.host ++ endpoint) with
  | Except.error e => Except.error e
  | Except.ok u =>
    match withQueryParams with
    | none => Except.ok u
    | some ps =>
      Except.ok { u with rawQuery := encodeValues (mergeQueryParams (parseQuery u.rawQuery) ps) }

/-- internalRawRequest (fast_client.go lines 69-81).  The payload
(`withRequest`, a `json.Marshaler`) is represented by the observable result of
its `MarshalJSON` method: the produced bytes together with an optional error —
Go returns both, and `sendRequest` records the bytes as diagnostic text even
when the error is non-nil.  The response target (`withResponse`, a
`json.Unmarshaler`) is represented by its `UnmarshalJSON` method: given the
raw body it either succeeds or yields an error message.
`acceptedStatusCodes` and `withQueryParams` are `Option`s to keep Go's
nil-versus-present distinction (`handleStatusCode` tests the slice against
nil, `sendRequest` tests the map against nil). -/
structure InternalRawRequest where
  endpoint : String
  method : String
  withRequest : Option (String × Option String)
  withResponse : Option (String → Option String)
  withQueryParams : Option (List (String × String))
  acceptedStatusCodes : Option (List Int)
  functionName : String
  apiName : String

/-- The outgoing fasthttp request as configured by `sendRequest` just before
`httpClient.Do`: URI, method, optional body, and the two headers it sets. -/
structure OutRequest where
  uri : String
  method : String
  body : Option String
  contentTypeHeader : Option String
  apiKeyHeader : Option String
  deriving DecidableEq, Repr

/-- A fasthttp response as the Dispatcher observes it: status code and raw
body. -/
structure TResponse where
  statusCode : Int
  body : String
  deriving DecidableEq, Repr

/-- The Transport collaborator (`httpClient.Do`): given the outgoing request,
either a response or a transport-level failure. -/
structure Env where
  transport : OutRequest → Except String TResponse

/-- Errors surfaced by the dispatch pipeline: either a plain wrapped error
(`errors.Wrap`, used by `sendRequest` for a URL-parse failure) or the
structured client Error. -/
inductive DispatchError where
  | wrapped (msg : String) (cause : String)
  | structured (e : MeiliError)
  deriving DecidableEq, Repr

/-- The data a pooled fasthttp Response yields once released: sendRequest
defers `fasthttp.ReleaseResponse(response)` right after acquiring it
(fast_client.go lines 142-144), so the deferred release runs when sendRequest
returns, before its caller reads the returned pointer; ReleaseResponse resets
the object, after which `StatusCode()` reports fasthttp's default 200 and
`Body()` is empty. -/
def releasedResponse : TResponse := { statusCode := 200, body := "" }

/-- Outcome of `sendRequest`: what the returned response pointer holds when
the caller reads it (the released, reset object on the success path), the
request handed to the Transport when one was, the status/body the Transport
actually wrote into the response before the deferred release reset it (an
observation for specification only — the source discards it), and the
internal-error diagnostic state after the call. -/
structure SendResult where
  response : Except DispatchError TResponse
  sent : Option OutRequest
  transportResponse : Option TResponse
  errState : MeiliError
  deriving DecidableEq, Repr

/-- sendRequest (fast_client.go lines 118-178): construct the URL (aborting
with a plain wrapped error on parse failure), merge query parameters,
serialize the payload when present (recording its bytes as the request
diagnostic text and aborting with `ErrCodeMarshalRequest` on failure), set the
content-type header and — when the configured API key is non-empty — the API
key header, then invoke the Transport once, tagging a transport failure with
`ErrCodeRequestExecution`.  On the success path the function returns the
pooled response pointer while its deferred `ReleaseResponse` (line 144) resets
the pointee, so the caller receives `releasedResponse`, not the data the
Transport wrote. -/
def sendRequest (cfg : Config) (req : InternalRawRequest) (internalError : MeiliError)
    (env : Env) : SendResult :=
  match buildRequestURL cfg req.endpoint req.withQueryParams with
  | Except.error e =>
    { response := Except.error (DispatchError.wrapped "unable to parse url" e),
      sent := none, transportResponse := none, errState := internalError }
  | Except.ok requestURL =>
    match req.withRequest with
    | some (data, some e) =>
      let ie := { internalError with requestToString := data }
      { response := Except.error
          (DispatchError.structured (ie.withErrCode ErrCode.marshalRequest (some e))),
        sent := none, transportResponse := none, errState := ie }
    | other =>
      let ie := match other with
        | some (data, _) => { internalError with requestToString := data }
        | none => internalError
      let body : Option String := match other with
        | some (data, _) => some data
        | none => none
      let outReq : OutRequest :=
        { uri := urlString requestURL, method := req.method, body := body,
          contentTypeHeader := some "application/json",
          apiKeyHeader := if cfg.apiKey = "" then none else some cfg.apiKey }
      match env.transport outReq with
      | Except.error e =>
        { response := Except.error
            (DispatchError.structured (ie.withErrCode ErrCode.requestExecution (some e))),
          sent := some outReq, transportResponse := none, errState := ie }
      | Except.ok resp =>
        { response := Except.ok releasedResponse, sent := some outReq,
          transportResponse := some resp, errState := ie }

/-- handleStatusCode (fast_client.go lines 180-200): when
`acceptedStatusCodes` is present (non-nil), membership of the observed status
code is required; on non-membership the raw body is recorded via `ErrorBody`
and the error is tagged `ErrCodeResponseStatusCode`.  A nil
`acceptedStatusCodes` skips classification entirely. -/
def handleStatusCode (req : InternalRawRequest) (response : TResponse)
    (internalError : MeiliError) : Except DispatchError Unit :=
  match req.acceptedStatusCodes with
  | some codes =>
    if codes.contains response.statusCode then Except.ok ()
    else
      Except.error (DispatchError.structured
        ((internalError.errorBody response.body).withErrCode ErrCode.responseStatusCode none))
  | none => Except.ok ()

/-- handleResponse (fast_client.go lines 202-213): when a response target is
present, record the raw body as the response diagnostic text and unmarshal the
body into the target, tagging a decode failure with
`ErrCodeResponseUnmarshalBody`.  The boolean reports whether the target's
`UnmarshalJSON` was invoked — the only write to the response target anywhere
in the pipeline. -/
def handleResponse (req : InternalRawRequest) (response : TResponse)
    (internalError : MeiliError) : Except DispatchError Unit × Bool :=
  match req.withResponse with
  | some unmarshal =>
    let ie := { internalError with responseToString := response.body }
    match unmarshal response.body with
    | some e =>
      (Except.error (DispatchError.structured
         (ie.withErrCode ErrCode.responseUnmarshalBody (some e))), true)
    | none => (Except.ok (), true)
  | none => (Except.ok (), false)

/-- The internalError value as initialized at the top of `executeRequest`
(fast_client.go lines 84-93): diagnostic fields set to their sentinel texts,
no kind tag, no wrapped cause, zero status code. -/
def initialInternalError (req : InternalRawRequest) : MeiliError :=
  { endpoint := req.endpoint, method := req.method,
    function := req.functionName, apiName := req.apiName,
    requestToString := "empty request", responseToString := "empty response",
    meilisearchMessage := "empty meilisearch message",
    statusCodeExpected := req.acceptedStatusCodes,
    statusCode := 0, errCode := none, wrappedCause := none }

/-- Outcome of `executeRequest`: the dispatch result, the request the
Transport received when it was invoked, and whether the response target's
`UnmarshalJSON` was invoked. -/
structure ExecOutcome where
  result : Except DispatchError Unit
  sent : Option OutRequest
  decodeInvoked : Bool
  deriving DecidableEq, Repr

/-- executeRequest (fast_client.go lines 83-116): initialize the diagnostic
error, run `sendRequest`, record the status code of the returned response,
classify it with `handleStatusCode`, then decode with `handleResponse`; the
first failing stage aborts the pipeline.  Every read of the response (lines
100-110) happens after sendRequest's deferred release has reset it, so the
status recorded, classified and decoded is that of `releasedResponse`, never
the Transport's. -/
def executeRequest (cfg : Config) (req : InternalRawRequest) (env : Env) : ExecOutcome :=
  let internalError := initialInternalError req
  let s := sendRequest cfg req internalError env
  match s.response with
  | Except.error e => { result := Except.error e, sent := s.sent, decodeInvoked := false }
  | Except.ok response =>
    let ie := { s.errState with statusCode := response.statusCode }
    match handleStatusCode req response ie with
    | Except.error e => { result := Except.error e, sent := s.sent, decodeInvoked := false }
    | Except.ok _ =>
      match handleResponse req response ie with
      | (Except.error e, inv) =>
        { result := Except.error e, sent := s.sent, decodeInvoked := inv }
      | (Except.ok _, inv) =>
        { result := Except.ok (), sent := s.sent, decodeInvoked := inv }

/-- UpdateStatus (types file): a string-typed status. -/
abbrev UpdateStatus := String

/-- UpdateStatusUnknown, the default status that "should not exist". -/
def updateStatusUnknown : UpdateStatus := "unknown"

/-- UpdateStatusEnqueued: the server knows the update but has not handled it
yet. -/
def updateStatusEnqueued : UpdateStatus := "enqueued"

/-- UpdateStatusProcessed: the update completed successfully. -/
def updateStatusProcessed : UpdateStatus := "processed"

/-- UpdateStatusFailed: the update completed with a reported error. -/
def updateStatusFailed : UpdateStatus := "failed"

/-- One `apiUpdates.Get` call as the poller observes it: a fetch error, or an
Update record carrying the given status. -/
inductive FetchOutcome where
  | err
  | ok (status : UpdateStatus)
  deriving DecidableEq, Repr

/-- A poll execution environment: `ctxErr n` is the value of `ctx.Err()`
observed at the n-th iteration boundary, `fetch n` the outcome of the n-th
`apiUpdates.Get` call. -/
structure PollEnv where
  ctxErr : Nat → Option String
  fetch : Nat → FetchOutcome

/-- The pair WaitForPendingUpdate returns, extended with the number of `Get`
calls issued before returning. -/
structure WaitResult where
  status : UpdateStatus
  error : Option String
  fetchCount : Nat
  deriving DecidableEq, Repr

/-- The loop of WaitForPendingUpdate (fast_client.go lines 233-245), with `i`
the iteration counter and an explicit fuel bound standing for the unbounded
Go loop: check `ctx.Err()` first and return the empty status with that error
when it is set; then issue one `Get`, returning status unknown with a nil
error on a fetch failure and the fetched status with a nil error when it is
not enqueued; otherwise sleep for the interval (no observable effect in this
model beyond reaching the next iteration boundary) and repeat. -/
def waitForPendingUpdate (env : PollEnv) : Nat → Nat → Option WaitResult
  | 0, _ => none
  | fuel + 1, i =>
    match env.ctxErr i with
    | some e => some { status := "", error := some e, fetchCount := i }
    | none =>
      match env.fetch i with
      | FetchOutcome.err =>
        some { status := updateStatusUnknown, error := none, fetchCount := i + 1 }
      | FetchOutcome.ok s =>
        if s ≠ updateStatusEnqueued then
          some { status := s, error := none, fetchCount := i + 1 }
        else waitForPendingUpdate env fuel (i + 1)

/-- The poll environment drives the loop past the first n iteration
boundaries: no cancellation and an enqueued status at each of them. -/
def runsPast (env : PollEnv) (n : Nat) : Prop :=
  ∀ i, i < n → env.ctxErr i = none ∧ env.fetch i = FetchOutcome.ok updateStatusEnqueued

/-- Concrete descriptor used to instantiate the status-classification
theorem: the spec's scenario of a DELETE accepting only 204. -/
def c1Req : InternalRawRequest :=
  { endpoint := "/indexes/movies", method := "DELETE", withRequest := none,
    withResponse := none, withQueryParams := none,
    acceptedStatusCodes := some [204], functionName := "DeleteIndex", apiName := "Indexes" }

/-- Concrete descriptor whose accepted-status list is present but empty: a
non-nil empty slice in Go. -/
def c1ReqEmptyAccepted : InternalRawRequest :=
  { endpoint := "/health", method := "GET", withRequest := none,
    withResponse := none, withQueryParams := none,
    acceptedStatusCodes := some [], functionName := "GetHealth", apiName := "Health" }

/-- Concrete configuration for the serialization-failure instance. -/
def c2Cfg : Config := { host := "http://localhost:7700", apiKey := "" }

/-- Concrete descriptor whose payload's MarshalJSON fails after producing
partial bytes. -/
def c2Req : InternalRawRequest :=
  { endpoint := "/indexes", method := "POST",
    withRequest := some ("PARTIAL", some "marshal failure"),
    withResponse := none, withQueryParams := none,
    acceptedStatusCodes := some [201], functionName := "CreateIndex", apiName := "Indexes" }

/-- Concrete Transport for the serialization-failure instance; the theorem
shows it is never consulted. -/
def c2Env : Env := { transport := fun _ => Except.ok { statusCode := 201, body := "" } }

/-- The URL the serialization-failure instance constructs. -/
def c2U : ParsedURL :=
  { base := "http://localhost:7700/indexes", rawQuery := "", fragment := "" }

/-- Poll environment whose cancellation signal is already set at entry. -/
def c3Env : PollEnv :=
  { ctxErr := fun _ => some "context canceled",
    fetch := fun _ => FetchOutcome.ok updateStatusEnqueued }

/-- Poll environment whose first fetch fails with no cancellation set. -/
def c4Env : PollEnv :=
  { ctxErr := fun _ => none, fetch := fun _ => FetchOutcome.err }

/-- Concrete configuration whose host contains an ASCII control character, so
that URL construction fails. -/
def c5Cfg : Config := { host := "http://h\x00st", apiKey := "" }

/-- Concrete descriptor dispatched against the malformed host. -/
def c5Req : InternalRawRequest :=
  { endpoint := "/health", method := "GET", withRequest := none,
    withResponse := none, withQueryParams := none,
    acceptedStatusCodes := some [200], functionName := "GetHealth", apiName := "Health" }

/-- Concrete Transport for the URL-failure instance; the theorem shows it is
never consulted. -/
def c5Env : Env := { transport := fun _ => Except.ok { statusCode := 200, body := "" } }

/-- Concrete configuration for the absent-response-target instance. -/
def c6Cfg : Config := { host := "http://localhost:7700", apiKey := "" }

/-- Concrete descriptor with no response target, accepting only 204 — the
shape fastClientIndexes.Delete really builds. -/
def c6Req : InternalRawRequest :=
  { endpoint := "/indexes/movies", method := "DELETE", withRequest := none,
    withResponse := none, withQueryParams := none,
    acceptedStatusCodes := some [204], functionName := "DeleteIndex", apiName := "Indexes" }

/-- Concrete Transport answering exactly the accepted status 204 with a
non-empty body. -/
def c6Env : Env :=
  { transport := fun _ => Except.ok { statusCode := 204, body := "it is not json" } }

/-- Concrete configuration for the decode-stage instances. -/
def c7Cfg : Config := { host := "http://localhost:7700", apiKey := "" }

/-- Concrete descriptor with a response target (whose UnmarshalJSON always
succeeds, so an invocation is a write) accepting only 200. -/
def c7Req : InternalRawRequest :=
  { endpoint := "/indexes/movies", method := "GET", withRequest := none,
    withResponse := some (fun _ => none), withQueryParams := none,
    acceptedStatusCodes := some [200], functionName := "GetIndex", apiName := "Indexes" }

/-- Concrete Transport answering a server failure, status 500 — not in the
accepted set of c7Req. -/
def c7Env : Env :=
  { transport := fun _ => Except.ok { statusCode := 500, body := "server error" } }

/-- Concrete descriptor with a response target accepting only 204. -/
def c7ReqB : InternalRawRequest :=
  { endpoint := "/indexes/movies", method := "DELETE", withRequest := none,
    withResponse := some (fun _ => none), withQueryParams := none,
    acceptedStatusCodes := some [204], functionName := "DeleteIndex", apiName := "Indexes" }

/-- Concrete Transport answering exactly the accepted status 204 of
c7ReqB. -/
def c7EnvB : Env :=
  { transport := fun _ => Except.ok { statusCode := 204, body := "done" } }

/-- Concrete configuration for the query-merge instance. -/
def c8Cfg : Config := { host := "http://localhost:7700", apiKey := "" }

/-- Endpoint with an embedded query whose limit key collides with a
descriptor parameter. -/
def c8Endpoint : String := "/indexes/movies/documents?limit=5&offset=2"

/-- Descriptor query parameters for the query-merge instance. -/
def c8Ps : List (String × String) := [("limit", "10"), ("attributesToRetrieve", "title")]

/-- The URL parsed from host plus endpoint in the query-merge instance. -/
def c8U : ParsedURL :=
  { base := "http://localhost:7700/indexes/movies/documents",
    rawQuery := "limit=5&offset=2", fragment := "" }

/-- Poll environment whose deadline has already expired at entry. -/
def c9Env : PollEnv :=
  { ctxErr := fun _ => some "context deadline exceeded",
    fetch := fun _ => FetchOutcome.ok updateStatusEnqueued }

/-- Concrete configuration with a non-empty API key. -/
def c10Cfg : Config := { host := "http://localhost:7700", apiKey := "masterKey" }

/-- Concrete payload-free GET descriptor for the header instance. -/
def c10Req : InternalRawRequest :=
  { endpoint := "/version", method := "GET", withRequest := none,
    withResponse := none, withQueryParams := none,
    acceptedStatusCodes := some [200], functionName := "GetVersion", apiName := "Version" }

/-- Concrete Transport for the header instance. -/
def c10Env : Env := { transport := fun _ => Except.ok { statusCode := 200, body := "" } }

/-- The outgoing request the header instance hands to the Transport. -/
def c10Out : OutRequest :=
  { uri := "http://localhost:7700/version", method := "GET", body := none,
    contentTypeHeader := some "application/json", apiKeyHeader := some "masterKey" }

/-- Stepping lemma for the wait loop: one boundary with no cancellation and an
enqueued fetch advances the iteration counter and consumes one unit of
fuel. -/
theorem waitForPendingUpdate_step (env : PollEnv) (fuel i : Nat)
    (h1 : env.ctxErr i = none)
    (h2 : env.fetch i = FetchOutcome.ok updateStatusEnqueued) :
    waitForPendingUpdate env (fuel + 1) i = waitForPendingUpdate env fuel (i + 1) := by
  simp [waitForPendingUpdate, h1, h2]

/-- Advancing lemma for the wait loop: n benign boundaries starting at i move
the loop to boundary i + n. -/
theorem waitForPendingUpdate_advance (env : PollEnv) :
    ∀ (n fuel i : Nat),
      (∀ j, j < n → env.ctxErr (i + j) = none ∧
        env.fetch (i + j) = FetchOutcome.ok updateStatusEnqueued) →
      waitForPendingUpdate env (n + fuel) i = waitForPendingUpdate env fuel (i + n) := by
  intro n
  induction n with
  | zero => intro fuel i _; simp
  | succ n ih =>
    intro fuel i h
    have h0 := h 0 (Nat.succ_pos n)
    rw [show i + 0 = i from rfl] at h0
    have hstep : waitForPendingUpdate env (n + 1 + fuel) i
        = waitForPendingUpdate env (n + fuel) (i + 1) := by
      rw [show n + 1 + fuel = (n + fuel) + 1 from by omega]
      exact waitForPendingUpdate_step env (n + fuel) i h0.1 h0.2
    rw [hstep]
    have hshift : ∀ j, j < n → env.ctxErr (i + 1 + j) = none ∧
        env.fetch (i + 1 + j) = FetchOutcome.ok updateStatusEnqueued := by
      intro j hj
      have := h (j + 1) (by omega)
      rwa [show i + (j + 1) = i + 1 + j from by omega] at this
    rw [ih fuel (i + 1) hshift, show i + 1 + n = i + (n + 1) from by omega]

/-- C3: a cancellation or deadline already visible at an iteration boundary —
in particular at entry — returns immediately with the empty status and the
cancellation error, without issuing another poll (the fetch count stays at the
number of earlier iterations); and a non-nil error is returned only from this
path: whenever the loop returns a non-nil error, the status is empty and the
error is exactly the cancellation value observed at the boundary it stopped
at — terminal statuses and fetch failures always return a nil error. -/
theorem c3_cancellationPriority (env : PollEnv) :
    (∀ n e fuel, runsPast env n → env.ctxErr n = some e →
      waitForPendingUpdate env (n + (fuel + 1)) 0 =
        some { status := "", error := some e, fetchCount := n }) ∧
    (∀ fuel i r, waitForPendingUpdate env fuel i = some r → r.error ≠ none →
      r.status = "" ∧ env.ctxErr r.fetchCount = r.error) := by
  constructor
  · intro n e fuel hrun hc
    have hadv := waitForPendingUpdate_advance env n (fuel + 1) 0
      (by intro j hj; simpa using hrun j hj)
    rw [hadv]
    simp [waitForPendingUpdate, hc]
  · intro fuel
    induction fuel with
    | zero => intro i r h; simp [waitForPendingUpdate] at h
    | succ fuel ih =>
      intro i r h hne
      cases hc : env.ctxErr i with
      | some e =>
        simp only [waitForPendingUpdate, hc, Option.some.injEq] at h
        subst h
        exact ⟨rfl, hc⟩
      | none =>
        cases hf : env.fetch i with
        | err =>
          simp only [waitForPendingUpdate, hc, hf, Option.some.injEq] at h
          subst h
          simp at hne
        | ok s =>
          simp only [waitForPendingUpdate, hc, hf] at h
          by_cases hs : s = updateStatusEnqueued
          · rw [if_neg (by simp [hs])] at h
            exact ih (i + 1) r h hne
          · rw [if_pos (by simpa using hs)] at h
            simp only [Option.some.injEq] at h
            subst h
            simp at hne

/-- C3 witness: with the cancellation signal set at entry, the loop returns
the empty status, the cancellation error and a zero fetch count; and the
error-only-from-cancellation direction holds on that concrete run. -/
theorem c3_witness :
    waitForPendingUpdate c3Env 1 0 =
      some { status := "", error := some "context canceled", fetchCount := 0 } ∧
    ("" : UpdateStatus) = "" ∧ c3Env.ctxErr 0 = some "context canceled" :=
  ⟨(c3_cancellationPriority c3Env).1 0 "context canceled" 0
      (fun _ hj => absurd hj (Nat.not_lt_zero _)) rfl,
    (c3_cancellationPriority c3Env).2 1 0
      { status := "", error := some "context canceled", fetchCount := 0 }
      (by decide) (by decide)⟩

/-- C4: when the loop reaches an iteration whose fetch of the Update Record
fails, it returns the unknown status together with a nil error and exits; the
fetch failure is not propagated as an error and the failing fetch is issued
exactly once (the fetch count is the number of earlier iterations plus
one). -/
theorem c4_fetchFailureDegradesToUnknown (env : PollEnv) (n fuel : Nat)
    (hrun : runsPast env n) (hc : env.ctxErr n = none)
    (hf : env.fetch n = FetchOutcome.err) :
    waitForPendingUpdate env (n + (fuel + 1)) 0 =
      some { status := updateStatusUnknown, error := none, fetchCount := n + 1 } := by
  have hadv := waitForPendingUpdate_advance env n (fuel + 1) 0
    (by intro j hj; simpa using hrun j hj)
  rw [hadv]
  simp [waitForPendingUpdate, hc, hf]

/-- C4 witness: a first-iteration fetch failure returns unknown with a nil
error after exactly one fetch. -/
theorem c4_witness :
    waitForPendingUpdate c4Env 1 0 =
      some { status := updateStatusUnknown, error := none, fetchCount := 1 } :=
  c4_fetchFailureDegradesToUnknown c4Env 0 0
    (fun _ hj => absurd hj (Nat.not_lt_zero _)) rfl rfl

/-- Termination helper: the loop returns once some boundary within the fuel
window carries a set cancellation signal. -/
theorem waitForPendingUpdate_isSome (env : PollEnv) :
    ∀ fuel i, (∃ j, i ≤ j ∧ j < i + fuel ∧ (env.ctxErr j).isSome) →
      (waitForPendingUpdate env fuel i).isSome := by
  intro fuel
  induction fuel with
  | zero =>
    intro i h
    obtain ⟨j, h1, h2, _⟩ := h
    omega
  | succ fuel ih =>
    intro i h
    obtain ⟨j, hij, hlt, hsome⟩ := h
    cases hc : env.ctxErr i with
    | some e => simp [waitForPendingUpdate, hc]
    | none =>
      cases hf : env.fetch i with
      | err => simp [waitForPendingUpdate, hc, hf]
      | ok s =>
        simp only [waitForPendingUpdate, hc, hf]
        by_cases hs : s = updateStatusEnqueued
        · rw [if_neg (by simp [hs])]
          apply ih (i + 1)
          refine ⟨j, ?_, by omega, hsome⟩
          rcases Nat.eq_or_lt_of_le hij with rfl | hgt
          · rw [hc] at hsome; simp at hsome
          · omega
        · rw [if_pos (by simpa using hs)]
          simp

/-- C9: the wait loop terminates in every execution whose
cancellation/deadline signal eventually fires: the signal is consulted at
every iteration boundary before the fetch, each iteration either returns or
proceeds to the next boundary, so once the signal is set at boundary n the
loop returns within n + 1 iterations (any fuel beyond n suffices); wall-clock
time is abstracted into the per-iteration boundaries, one sleep of the fixed
interval separating consecutive ones. -/
theorem c9_terminationOnceSignalFires (env : PollEnv) (n : Nat)
    (hc : (env.ctxErr n).isSome) :
    ∀ fuel, n < fuel → (waitForPendingUpdate env fuel 0).isSome = true := by
  intro fuel hlt
  exact waitForPendingUpdate_isSome env fuel 0 ⟨n, Nat.zero_le n, by omega, hc⟩

/-- C9 witness: with the deadline expired at entry, one unit of fuel already
makes the loop return. -/
theorem c9_witness : (waitForPendingUpdate c9Env 1 0).isSome = true :=
  c9_terminationOnceSignalFires c9Env 0 (by decide) 1 (by decide)

/-- C1 counterexample: a descriptor whose accepted-status list is empty but
present (a non-nil empty slice) does not have classification skipped — the
observed status code 200 is rejected rather than treated as accepted, because
handleStatusCode tests the list against nil, not against emptiness. -/
theorem c1_counterexample :
    handleStatusCode c1ReqEmptyAccepted { statusCode := 200, body := "" }
      (initialInternalError c1ReqEmptyAccepted) ≠ Except.ok () := by decide

/-- C1 amended: status classification is the nil test plus exact membership:
it is skipped precisely when the accepted-status list is absent (nil); when
the list is present — including present-but-empty — the observed status code
must be a member, and any code outside the list (even an unlisted 2xx) yields
an ErrCodeResponseStatusCode error carrying the raw body, regardless of the
body's content, including an empty or malformed body. -/
theorem c1_statusClassification (req : InternalRawRequest) (resp : TResponse)
    (ie : MeiliError) :
    (req.acceptedStatusCodes = none → handleStatusCode req resp ie = Except.ok ()) ∧
    (∀ codes, req.acceptedStatusCodes = some codes → resp.statusCode ∈ codes →
      handleStatusCode req resp ie = Except.ok ()) ∧
    (∀ codes, req.acceptedStatusCodes = some codes → resp.statusCode ∉ codes →
      handleStatusCode req resp ie = Except.error (DispatchError.structured
        ((ie.errorBody resp.body).withErrCode ErrCode.responseStatusCode none))) := by
  refine ⟨fun h => by simp [handleStatusCode, h], fun codes h hmem => ?_, fun codes h hmem => ?_⟩
  · simp [handleStatusCode, h, hmem]
  · simp [handleStatusCode, h, hmem]

/-- C1 witness: for the DELETE descriptor accepting only 204, the listed code
204 passes and the unlisted code 404 with the spec's scenario body yields the
ErrCodeResponseStatusCode error. -/
theorem c1_witness :
    handleStatusCode c1Req { statusCode := 204, body := "ignored" }
      (initialInternalError c1Req) = Except.ok () ∧
    handleStatusCode c1Req { statusCode := 404, body := "Index not found" }
      (initialInternalError c1Req) = Except.error (DispatchError.structured
        (((initialInternalError c1Req).errorBody "Index not found").withErrCode
          ErrCode.responseStatusCode none)) :=
  ⟨(c1_statusClassification c1Req { statusCode := 204, body := "ignored" }
      (initialInternalError c1Req)).2.1 [204] rfl (by decide),
   (c1_statusClassification c1Req { statusCode := 404, body := "Index not found" }
      (initialInternalError c1Req)).2.2 [204] rfl (by decide)⟩

/-- C2: when the payload is present and its MarshalJSON fails (and the URL
itself is well formed, so that dispatch reaches the serialization step), the
dispatch returns an ErrCodeMarshalRequest error wrapping the serialization
failure, the Transport is never invoked, the response target is never written,
and the bytes the failing MarshalJSON produced are recorded as the request
diagnostic text inside the returned error. -/
theorem c2_marshalFailureNoTransport (cfg : Config) (req : InternalRawRequest)
    (env : Env) (data e : String) (u : ParsedURL)
    (hreq : req.withRequest = some (data, some e))
    (hurl : buildRequestURL cfg req.endpoint req.withQueryParams = Except.ok u) :
    executeRequest cfg req env =
      { result := Except.error (DispatchError.structured
          (({ initialInternalError req with requestToString := data }).withErrCode
            ErrCode.marshalRequest (some e))),
        sent := none, decodeInvoked := false } := by
  simp [executeRequest, sendRequest, hurl, hreq]

/-- C2 witness: a POST whose payload fails to serialize returns the
serialization error with the partial bytes recorded, and no request reaches
the Transport. -/
theorem c2_witness :
    executeRequest c2Cfg c2Req c2Env =
      { result := Except.error (DispatchError.structured
          (({ initialInternalError c2Req with requestToString := "PARTIAL" }).withErrCode
            ErrCode.marshalRequest (some "marshal failure"))),
        sent := none, decodeInvoked := false } :=
  c2_marshalFailureNoTransport c2Cfg c2Req c2Env "PARTIAL" "marshal failure" c2U rfl
    (by decide)

/-- C5 counterexample: with a host containing a control character the URL
parse fails and dispatch returns a plain wrapped error
(errors.Wrap with the message about the unparseable url) rather than a
Structured Error carrying a kind tag, so the claim's demanded Structured
Error of kind UrlConstruction is not what the code produces; the call does
abort before any network I/O. -/
theorem c5_counterexample :
    executeRequest c5Cfg c5Req c5Env =
      { result := Except.error (DispatchError.wrapped "unable to parse url"
          "net/url: invalid control character in URL"),
        sent := none, decodeInvoked := false } := by decide

/-- C5 amended: when parsing the URL obtained by joining the base host with
the endpoint fails, dispatch fails with a plain error wrapping the parse
error under the message about the unparseable url — not with a Structured
Error carrying a kind tag — and the call aborts before any network I/O is
performed and before the response target could be written. -/
theorem c5_urlParseFailureAborts (cfg : Config) (req : InternalRawRequest)
    (env : Env) (e : String)
    (hurl : parseURL (cfg.host ++ req.endpoint) = Except.error e) :
    executeRequest cfg req env =
      { result := Except.error (DispatchError.wrapped "unable to parse url" e),
        sent := none, decodeInvoked := false } := by
  simp [executeRequest, sendRequest, buildRequestURL, hurl]

/-- C5 witness: the control-character host instantiates the amended
theorem. -/
theorem c5_witness :
    executeRequest c5Cfg c5Req c5Env =
      { result := Except.error (DispatchError.wrapped "unable to parse url"
          "net/url: invalid control character in URL"),
        sent := none, decodeInvoked := false } :=
  c5_urlParseFailureAborts c5Cfg c5Req c5Env
    "net/url: invalid control character in URL" (by decide)

/-- C6 bug evidence: a DELETE with accepted set 204 and no response target,
against a Transport answering exactly 204, does not succeed as the claim and
the spec require — executeRequest classifies the response after sendRequest's
deferred fasthttp.ReleaseResponse has reset it, so it sees status 200 with an
empty body, finds 200 outside the accepted set, and returns an
ErrCodeResponseStatusCode error recording observed status 200; the Transport
was invoked (the request below reached it), its accepted 204 answer simply
never reaches classification. -/
theorem c6_bugEvidence :
    executeRequest c6Cfg c6Req c6Env =
      { result := Except.error (DispatchError.structured
          ((({ initialInternalError c6Req with statusCode := 200 }).errorBody "").withErrCode
            ErrCode.responseStatusCode none)),
        sent := some { uri := "http://localhost:7700/indexes/movies", method := "DELETE",
                       body := none, contentTypeHeader := some "application/json",
                       apiKeyHeader := none },
        decodeInvoked := false } := by decide

/-- C7 bug evidence: the response target is not written iff the observed
status code was accepted — both directions fail because classification reads
the released, reset response (status 200, empty body) rather than the
Transport's: with accepted set 200 against a Transport answering 500, the
target's UnmarshalJSON is invoked (on the empty body) although the observed
500 was not accepted; with accepted set 204 against a Transport answering
exactly 204, the target is never written although the observed status was
accepted. -/
theorem c7_bugEvidence :
    (executeRequest c7Cfg c7Req c7Env).decodeInvoked = true ∧
    (executeRequest c7Cfg c7ReqB c7EnvB).decodeInvoked = false := by decide

/-- C10: every request actually handed to the Transport — payload-free GETs
and DELETEs included — carries the JSON content-type header, and carries the
API-key header exactly when the configured key is non-empty, in which case the
header holds that key. -/
theorem c10_headers (cfg : Config) (req : InternalRawRequest) (ie : MeiliError)
    (env : Env) (r : OutRequest)
    (hsent : (sendRequest cfg req ie env).sent = some r) :
    r.contentTypeHeader = some "application/json" ∧
    (cfg.apiKey = "" → r.apiKeyHeader = none) ∧
    (cfg.apiKey ≠ "" → r.apiKeyHeader = some cfg.apiKey) := by
  simp only [sendRequest] at hsent
  split at hsent
  · simp at hsent
  · split at hsent
    · simp at hsent
    · split at hsent <;>
      · simp only [Option.some.injEq] at hsent
        subst hsent
        exact ⟨rfl, fun h => by simp [h], fun h => by simp [h]⟩

/-- C10 witness: a payload-free GET with a configured key carries both
headers. -/
theorem c10_witness :
    c10Out.contentTypeHeader = some "application/json" ∧
    (c10Cfg.apiKey = "" → c10Out.apiKeyHeader = none) ∧
    (c10Cfg.apiKey ≠ "" → c10Out.apiKeyHeader = some c10Cfg.apiKey) :=
  c10_headers c10Cfg c10Req (initialInternalError c10Req) c10Env c10Out (by decide)

/-- Lookup after Set at the same key returns exactly the set value. -/
theorem valuesGet_valuesSet_self (q : Values) (k v : String) :
    valuesGet (valuesSet q k v) k = [v] := by
  induction q with
  | nil => simp [valuesSet, valuesGet]
  | cons p rest ih =>
    obtain ⟨k1, vs⟩ := p
    by_cases h : k1 = k
    · simp [valuesSet, valuesGet, h]
    · simp [valuesSet, valuesGet, h, ih]

/-- Lookup after Set at a different key is unchanged. -/
theorem valuesGet_valuesSet_ne (q : Values) (k v k2 : String) (h : k2 ≠ k) :
    valuesGet (valuesSet q k v) k2 = valuesGet q k2 := by
  induction q with
  | nil => simp [valuesSet, valuesGet, Ne.symm h]
  | cons p rest ih =>
    obtain ⟨k1, vs⟩ := p
    by_cases h1 : k1 = k
    · simp [valuesSet, valuesGet, h1, Ne.symm h]
    · by_cases h2 : k1 = k2
      · simp [valuesSet, valuesGet, h1, h2, h]
      · simp [valuesSet, valuesGet, h1, h2, ih]

/-- Merging leaves keys the descriptor does not name untouched. -/
theorem valuesGet_merge_of_notMem (q : Values) (ps : List (String × String))
    (k : String) (h : k ∉ ps.map Prod.fst) :
    valuesGet (mergeQueryParams q ps) k = valuesGet q k := by
  induction ps generalizing q with
  | nil => simp [mergeQueryParams]
  | cons p ps ih =>
    simp only [List.map_cons, List.mem_cons, not_or] at h
    rw [show mergeQueryParams q (p :: ps) = mergeQueryParams (valuesSet q p.1 p.2) ps from rfl]
    rw [ih (valuesSet q p.1 p.2) h.2]
    exact valuesGet_valuesSet_ne q p.1 p.2 k h.1

/-- Merging maps every descriptor key (keys unique, as for a Go map) to
exactly its descriptor value. -/
theorem valuesGet_merge_of_mem (ps : List (String × String)) :
    ∀ (q : Values) (k v : String), (ps.map Prod.fst).Nodup → (k, v) ∈ ps →
      valuesGet (mergeQueryParams q ps) k = [v] := by
  induction ps with
  | nil =>
    intro q k v _ hmem
    simp at hmem
  | cons p ps ih =>
    intro q k v hnodup hmem
    obtain ⟨pk, pv⟩ := p
    simp only [List.map_cons, List.nodup_cons] at hnodup
    rw [show mergeQueryParams q ((pk, pv) :: ps) = mergeQueryParams (valuesSet q pk pv) ps from rfl]
    rcases List.mem_cons.mp hmem with heq | htail
    · injection heq with h1 h2
      subst h1
      subst h2
      rw [valuesGet_merge_of_notMem (valuesSet q k v) ps k hnodup.1]
      exact valuesGet_valuesSet_self q k v
    · exact ih (valuesSet q pk pv) k v hnodup.2 htail

/-- C8: for a descriptor with query parameters present, the constructed URL's
raw query is the encoding of the endpoint's embedded query merged with the
descriptor parameters via Set; in the merged query every descriptor key maps
to exactly its descriptor value — replacing any value embedded in the
endpoint under the same key — while keys the descriptor does not name keep
their embedded values. -/
theorem c8_queryMerge (cfg : Config) (endpoint : String)
    (ps : List (String × String)) (u : ParsedURL) (k v : String)
    (hurl : parseURL (cfg.host ++ endpoint) = Except.ok u)
    (hnodup : (ps.map Prod.fst).Nodup) (hmem : (k, v) ∈ ps) :
    buildRequestURL cfg endpoint (some ps) =
      Except.ok { u with
        rawQuery := encodeValues (mergeQueryParams (parseQuery u.rawQuery) ps) } ∧
    valuesGet (mergeQueryParams (parseQuery u.rawQuery) ps) k = [v] ∧
    (∀ k2, k2 ∉ ps.map Prod.fst →
      valuesGet (mergeQueryParams (parseQuery u.rawQuery) ps) k2 =
        valuesGet (parseQuery u.rawQuery) k2) :=
  ⟨by simp [buildRequestURL, hurl],
   valuesGet_merge_of_mem ps (parseQuery u.rawQuery) k v hnodup hmem,
   fun k2 hk2 => valuesGet_merge_of_notMem (parseQuery u.rawQuery) ps k2 hk2⟩

/-- C8 witness: with limit embedded in the endpoint as 5 and supplied by the
descriptor as 10, the descriptor wins, while the embedded offset is kept. -/
theorem c8_witness :
    buildRequestURL c8Cfg c8Endpoint (some c8Ps) =
      Except.ok { c8U with
        rawQuery := encodeValues (mergeQueryParams (parseQuery c8U.rawQuery) c8Ps) } ∧
    valuesGet (mergeQueryParams (parseQuery c8U.rawQuery) c8Ps) "limit" = ["10"] ∧
    valuesGet (mergeQueryParams (parseQuery c8U.rawQuery) c8Ps) "offset" =
      valuesGet (parseQuery c8U.rawQuery) "offset" :=
  ⟨(c8_queryMerge c8Cfg c8Endpoint c8Ps c8U "limit" "10" (by decide) (by decide) (by decide)).1,
   (c8_queryMerge c8Cfg c8Endpoint c8Ps c8U "limit" "10" (by decide) (by decide) (by decide)).2.1,
   (c8_queryMerge c8Cfg c8Endpoint c8Ps c8U "limit" "10" (by decide) (by decide) (by decide)).2.2
     "offset" (by decide)⟩
